import Mathlib

/-
Verification of `mmengine/hooks/runtime_info_hook.py` (the `RuntimeInfoHook`
lifecycle telemetry bridge) against its natural-language specification.

The hook's own code is embedded directly from the Python source.  The message
hub (the "runtime state registry") is not part of the given sources, so it is
modelled from the specification: an info store with overwrite semantics and a
scalar store with append-only history semantics, both keyed by strings.
-/

set_option autoImplicit false
set_option linter.unusedVariables false

namespace Mmengine

/-- Dynamic (Python-like) values that flow through the hook: integers
(epoch/iter counters, seed), floats (learning rates, metrics; modelled as
rationals since the hook only moves them, never computes with them), strings
(config text, names), and an opaque constructor for any other payload. -/
inductive PyValue where
  | int (n : Int)
  | float (q : ℚ)
  | str (s : String)
  | obj (tag : String)
  deriving DecidableEq, Repr

/-- The error kinds that can surface from the embedded code: `assertionError`
is what the Python `assert` in `before_train_iter` raises (the spec calls this
kind `ContractViolation`); `attributeError` models a failed Python attribute
access; `indexError` models out-of-bounds sequence indexing (`lr[0]` on an
empty sequence); `notFoundError` is the registry's missing-key error from the
spec. -/
inductive PyError where
  | assertionError (msg : String)
  | attributeError (attr : String)
  | indexError
  | notFoundError (key : String)
  deriving DecidableEq, Repr

/-- Look a key up in an association list (first match wins, as in a dict). -/
def lookupKey {β : Type} (l : List (String × β)) (k : String) : Option β :=
  match l with
  | [] => none
  | (a, b) :: rest => if a = k then some b else lookupKey rest k

/-- Overwrite the value stored under `k` (inserting at the end when absent),
keeping all other keys. -/
def updateAssoc {β : Type} (l : List (String × β)) (k : String) (v : β) :
    List (String × β) :=
  match l with
  | [] => [(k, v)]
  | (a, b) :: rest =>
      if a = k then (a, v) :: rest else (a, b) :: updateAssoc rest k v

/-- Append one element to the history stored under `k` (creating a singleton
history when absent), keeping all other keys. -/
def appendAssoc {β : Type} (l : List (String × List β)) (k : String) (x : β) :
    List (String × List β) :=
  match l with
  | [] => [(k, [x])]
  | (a, h) :: rest =>
      if a = k then (a, h ++ [x]) :: rest else (a, h) :: appendAssoc rest k x

/-- Modelled from the spec: the runtime state registry (called "message hub"
in the source, whose implementation is outside the given sources).  It holds
info entries (single current facts, last-write-wins) and scalar histories
(append-only ordered sequences of (value, optional step) pairs), in disjoint
key spaces. -/
structure MessageHub where
  info : List (String × PyValue)
  scalars : List (String × List (PyValue × Option Int))
  deriving DecidableEq, Repr

/-- Modelled from the spec: `update_info(key, value)` upserts an info entry,
overwriting any prior value under the same key; it never fails. -/
def MessageHub.update_info (hub : MessageHub) (k : String) (v : PyValue) :
    MessageHub :=
  { hub with info := updateAssoc hub.info k v }

/-- Modelled from the spec: `update_info_dict(values)` is the bulk form of
`update_info`, semantically one `update_info` per entry applied as a batch. -/
def MessageHub.update_info_dict (hub : MessageHub)
    (kvs : List (String × PyValue)) : MessageHub :=
  kvs.foldl (fun h kv => h.update_info kv.1 kv.2) hub

/-- Modelled from the spec: `update_scalar(key, value, step)` appends
`(value, step)` to the named scalar's history, never overwriting. -/
def MessageHub.update_scalar (hub : MessageHub) (k : String) (v : PyValue)
    (step : Option Int) : MessageHub :=
  { hub with scalars := appendAssoc hub.scalars k (v, step) }

/-- Modelled from the spec: `get_info(key)` reads an info entry, failing with
`NotFoundError` when the key was never written. -/
def MessageHub.get_info (hub : MessageHub) (k : String) :
    Except PyError PyValue :=
  match lookupKey hub.info k with
  | some v => .ok v
  | none => .error (.notFoundError k)

/-- Modelled from the spec: `get_scalar(key)` reads a scalar history in append
order, failing with `NotFoundError` when the key was never written. -/
def MessageHub.get_scalar (hub : MessageHub) (k : String) :
    Except PyError (List (PyValue × Option Int)) :=
  match lookupKey hub.scalars k with
  | some h => .ok h
  | none => .error (.notFoundError k)

/-- The training dataset as the hook sees it.  The source probes the
attribute `dataset_meta` with `hasattr` but then reads the attribute
`metainfo`; both are therefore modelled as separate optional attributes
(`none` means the Python object has no such attribute). -/
structure Dataset where
  dataset_meta : Option PyValue
  metainfo : Option PyValue
  deriving DecidableEq, Repr

/-- `runner.train_dataloader`: only its `dataset` attribute is read. -/
structure DataLoader where
  dataset : Dataset
  deriving DecidableEq, Repr

/-- `runner.cfg`: only its `pretty_text` attribute is read. -/
structure Config where
  pretty_text : String
  deriving DecidableEq, Repr

/-- The value returned by `runner.optim_wrapper.get_lr()`: either a dict
mapping parameter-group names to sequences of learning rates, or a value of
some other Python type (carrying that type's name, used in the assertion
message). -/
inductive LrResult where
  | dict (d : List (String × List ℚ))
  | nondict (typeName : String)
  deriving DecidableEq, Repr

/-- `runner.optim_wrapper`: only its `get_lr()` query is used. -/
structure OptimWrapper where
  get_lr : LrResult
  deriving DecidableEq, Repr

/-- The runner (orchestrator) fields the hook reads.  The message hub is kept
outside this structure and threaded explicitly through each hook method,
modelling the mutation of `runner.message_hub`. -/
structure Runner where
  cfg : Config
  seed : Int
  experiment_name : String
  epoch : Int
  iter : Int
  max_epochs : Int
  max_iters : Int
  train_dataloader : DataLoader
  optim_wrapper : OptimWrapper
  deriving DecidableEq, Repr

/-- `DATA_BATCH = Optional[Sequence[dict]]` from the source. -/
abbrev DATA_BATCH := Option (List (List (String × PyValue)))

/-- The state of the message hub after a fallible hook call, whether it
succeeded or raised: a Python exception leaves the mutations made before the
raise point in place, so errors carry the hub state at the raise. -/
def hubAfter (r : Except (PyError × MessageHub) MessageHub) : MessageHub :=
  match r with
  | .ok h => h
  | .error (_, h) => h

namespace RuntimeInfoHook

/-- The hook's fixed registration priority (`priority = 'VERY_HIGH'`). -/
def priority : String := "VERY_HIGH"

/-- The message of the `assert isinstance(lr_dict, dict)` in
`before_train_iter`, with the offending type's name interpolated. -/
def lrAssertMsg (typeName : String) : String :=
  "`runner.optim_wrapper.get_lr()` should return a dict " ++
  "of learning rate when training with OptimWrapper(single " ++
  "optimizer) or OptimWrapperDict(multiple optimizer), " ++
  "but got " ++ typeName ++ " please check your optimizer " ++
  "constructor return an `OptimWrapper` or `OptimWrapperDict` " ++
  "instance"

/-- `before_run`: builds `metainfo = dict(cfg=..., seed=..., experiment_name=...,
mmengine_version=mmengine.__version__ + get_git_hash())` and writes it in one
batch via `update_info_dict`.  `mmengine.__version__` and `get_git_hash()` are
outside the given sources, so the version and git-hash strings are passed as
parameters. -/
def before_run (version git_hash : String) (r : Runner) (hub : MessageHub) :
    MessageHub :=
  hub.update_info_dict
    [("cfg", .str r.cfg.pretty_text),
     ("seed", .int r.seed),
     ("experiment_name", .str r.experiment_name),
     ("mmengine_version", .str (version ++ git_hash))]

/-- `before_train`: writes `epoch`, `iter`, `max_epochs`, `max_iters`, then,
if `hasattr(runner.train_dataloader.dataset, 'dataset_meta')`, additionally
writes info `dataset_meta` with the value of the attribute
`runner.train_dataloader.dataset.metainfo` (reading `metainfo` raises
`AttributeError` when that attribute is absent). -/
def before_train (r : Runner) (hub : MessageHub) :
    Except (PyError × MessageHub) MessageHub :=
  let hub := hub.update_info "epoch" (.int r.epoch)
  let hub := hub.update_info "iter" (.int r.iter)
  let hub := hub.update_info "max_epochs" (.int r.max_epochs)
  let hub := hub.update_info "max_iters" (.int r.max_iters)
  match r.train_dataloader.dataset.dataset_meta with
  | some _ =>
      match r.train_dataloader.dataset.metainfo with
      | some m => .ok (hub.update_info "dataset_meta" m)
      | none => .error (.attributeError "metainfo", hub)
  | none => .ok hub

/-- `before_train_epoch`: overwrites info `epoch` with the current epoch. -/
def before_train_epoch (r : Runner) (hub : MessageHub) : MessageHub :=
  hub.update_info "epoch" (.int r.epoch)

/-- The `for name, lr in lr_dict.items()` loop of `before_train_iter`: for
each group, appends `lr[0]` under `'train/' + name` with no explicit step;
`lr[0]` raises `IndexError` when the sequence is empty, stopping the loop with
the mutations made so far in place. -/
def writeLrs (hub : MessageHub) :
    List (String × List ℚ) → Except (PyError × MessageHub) MessageHub
  | [] => .ok hub
  | (name, lr) :: rest =>
      match lr with
      | [] => .error (.indexError, hub)
      | v :: _ =>
          writeLrs (hub.update_scalar ("train/" ++ name) (.float v) none) rest

/-- `before_train_iter`: overwrites info `iter`, queries
`runner.optim_wrapper.get_lr()`, asserts the result is a dict (raising
`AssertionError` otherwise), then appends each group's first learning rate as
a scalar.  `batch_idx` and `data_batch` are received but never used. -/
def before_train_iter (r : Runner) ( batch_idx : Int)
    (data_batch : DATA_BATCH) (hub : MessageHub) :
    Except (PyError × MessageHub) MessageHub :=
  let hub := hub.update_info "iter" (.int r.iter)
  match r.optim_wrapper.get_lr with
  | .nondict t => .error (.assertionError (lrAssertMsg t), hub)
  | .dict d => writeLrs hub d

/-- A `for key, value in xs.items(): update_scalar(tag + key, value)` loop,
shared shape of the loops in `after_train_iter`, `after_val_epoch` and
`after_test_epoch` (with `tag` being `'train/'`, `'val/'`, `'test/'`). -/
def writeScalars (hub : MessageHub) (tag : String) :
    List (String × PyValue) → MessageHub
  | [] => hub
  | (k, v) :: rest =>
      writeScalars (hub.update_scalar (tag ++ k) v none) tag rest

/-- `after_train_iter`: if `outputs` is not `None`, appends each of its
key/value pairs as a scalar under `'train/' + key`; `batch_idx` and
`data_batch` are received but never used. -/
def after_train_iter (r : Runner) ( batch_idx : Int)
    (data_batch : DATA_BATCH) (outputs : Option (List (String × PyValue)))
    (hub : MessageHub) : MessageHub :=
  match outputs with
  | none => hub
  | some outs => writeScalars hub "train/" outs

/-- `after_val_epoch`: if `metrics` is not `None`, appends each of its
key/value pairs as a scalar under `'val/' + key`. -/
def after_val_epoch (r : Runner)
    (metrics : Option (List (String × PyValue))) (hub : MessageHub) :
    MessageHub :=
  match metrics with
  | none => hub
  | some ms => writeScalars hub "val/" ms

/-- `after_test_epoch`: if `metrics` is not `None`, appends each of its
key/value pairs as a scalar under `'test/' + key`. -/
def after_test_epoch (r : Runner)
    (metrics : Option (List (String × PyValue))) (hub : MessageHub) :
    MessageHub :=
  match metrics with
  | none => hub
  | some ms => writeScalars hub "test/" ms

end RuntimeInfoHook

/-! ### Basic lemmas about the registry operations -/

theorem lookupKey_updateAssoc {β : Type} (l : List (String × β))
    (k k' : String) (v : β) :
    lookupKey (updateAssoc l k v) k' =
      if k = k' then some v else lookupKey l k' := by
  induction l with
  | nil => simp only [updateAssoc, lookupKey]
  | cons p rest ih =>
      obtain ⟨a, b⟩ := p
      simp only [updateAssoc]
      by_cases hak : a = k
      · subst hak
        simp only [if_pos rfl, lookupKey]
        split_ifs <;> simp_all [lookupKey]
      · simp only [if_neg hak, lookupKey, ih]
        split_ifs <;> simp_all

theorem lookupKey_appendAssoc {β : Type} (l : List (String × List β))
    (k k' : String) (x : β) :
    lookupKey (appendAssoc l k x) k' =
      if k = k' then some ((lookupKey l k).getD [] ++ [x])
      else lookupKey l k' := by
  induction l with
  | nil => simp only [appendAssoc, lookupKey]; split_ifs <;> simp_all
  | cons p rest ih =>
      obtain ⟨a, h⟩ := p
      simp only [appendAssoc]
      by_cases hak : a = k
      · subst hak
        simp only [if_pos rfl, lookupKey]
        split_ifs <;> simp_all [lookupKey]
      · simp only [if_neg hak, lookupKey, ih]
        split_ifs <;> simp_all [lookupKey]

@[simp]
theorem update_info_scalars (hub : MessageHub) (k : String) (v : PyValue) :
    (hub.update_info k v).scalars = hub.scalars := rfl

@[simp]
theorem update_scalar_info (hub : MessageHub) (k : String) (v : PyValue)
    (s : Option Int) :
    (hub.update_scalar k v s).info = hub.info := rfl

theorem get_info_update_info (hub : MessageHub) (k k' : String) (v : PyValue) :
    (hub.update_info k v).get_info k' =
      if k = k' then .ok v else hub.get_info k' := by
  simp only [MessageHub.get_info, MessageHub.update_info, lookupKey_updateAssoc]
  split_ifs <;> rfl

theorem get_scalar_update_scalar (hub : MessageHub) (k k' : String)
    (v : PyValue) (s : Option Int) :
    (hub.update_scalar k v s).get_scalar k' =
      if k = k' then .ok ((lookupKey hub.scalars k).getD [] ++ [(v, s)])
      else hub.get_scalar k' := by
  simp only [MessageHub.get_scalar, MessageHub.update_scalar,
    lookupKey_appendAssoc]
  split_ifs <;> rfl

theorem string_append_cancel_left {s a b : String} (h : s ++ a = s ++ b) :
    a = b := by
  have hd : (s ++ a).data = (s ++ b).data := congrArg String.data h
  simp only [String.data_append] at hd
  have hab : a.data = b.data := List.append_cancel_left hd
  cases a; cases b
  exact congrArg String.mk hab

theorem string_append_ne {s a b : String} (h : a ≠ b) : s ++ a ≠ s ++ b :=
  fun hc => h (string_append_cancel_left hc)

/-! ### Lemmas about the learning-rate loop `writeLrs` -/

namespace RuntimeInfoHook

theorem writeLrs_info (d : List (String × List ℚ)) :
    ∀ hub : MessageHub, (hubAfter (writeLrs hub d)).info = hub.info := by
  induction d with
  | nil => intro hub; rfl
  | cons p rest ih =>
      intro hub
      obtain ⟨name, lr⟩ := p
      cases lr with
      | nil => rfl
      | cons v tl => simpa using ih (hub.update_scalar ("train/" ++ name) (.float v) none)

theorem writeLrs_ok (d : List (String × List ℚ)) (hne : ∀ p ∈ d, p.2 ≠ []) :
    ∀ hub : MessageHub, ∃ hub', writeLrs hub d = .ok hub' := by
  induction d with
  | nil => intro hub; exact ⟨hub, rfl⟩
  | cons p rest ih =>
      intro hub
      obtain ⟨name, lr⟩ := p
      cases lr with
      | nil => exact absurd rfl (hne (name, []) (by simp))
      | cons v tl =>
          exact ih (fun q hq => hne q (List.mem_cons_of_mem _ hq))
            (hub.update_scalar ("train/" ++ name) (.float v) none)

theorem writeLrs_indexError (d : List (String × List ℚ))
    (hemp : ∃ p ∈ d, p.2 = []) :
    ∀ hub : MessageHub, ∃ hub', writeLrs hub d = .error (.indexError, hub') := by
  induction d with
  | nil => simp at hemp
  | cons p rest ih =>
      intro hub
      obtain ⟨name, lr⟩ := p
      cases lr with
      | nil => exact ⟨hub, rfl⟩
      | cons v tl =>
          obtain ⟨q, hq, hq2⟩ := hemp
          rcases List.mem_cons.mp hq with hq | hq
          · subst hq; simp at hq2
          · exact ih ⟨q, hq, hq2⟩ (hub.update_scalar ("train/" ++ name) (.float v) none)

theorem writeLrs_frame (d : List (String × List ℚ)) (key : String)
    (hkey : ∀ p ∈ d, "train/" ++ p.1 ≠ key) :
    ∀ hub hub' : MessageHub, writeLrs hub d = .ok hub' →
      lookupKey hub'.scalars key = lookupKey hub.scalars key := by
  induction d with
  | nil => intro hub hub' h; cases h; rfl
  | cons p rest ih =>
      intro hub hub' h
      obtain ⟨name, lr⟩ := p
      cases lr with
      | nil => cases h
      | cons v tl =>
          have := ih (fun q hq => hkey q (List.mem_cons_of_mem _ hq)) _ _ h
          rw [this]
          simp only [MessageHub.update_scalar, lookupKey_appendAssoc]
          rw [if_neg (hkey (name, v :: tl) (by simp))]

theorem writeLrs_get (d : List (String × List ℚ)) (name : String) (v : ℚ)
    (tl : List ℚ) (hnodup : (d.map Prod.fst).Nodup)
    (hmem : (name, v :: tl) ∈ d) :
    ∀ hub hub' : MessageHub, writeLrs hub d = .ok hub' →
      lookupKey hub'.scalars ("train/" ++ name) =
        some ((lookupKey hub.scalars ("train/" ++ name)).getD [] ++
          [(.float v, none)]) := by
  induction d with
  | nil => simp at hmem
  | cons p rest ih =>
      intro hub hub' h
      obtain ⟨a, la⟩ := p
      simp only [List.map_cons, List.nodup_cons] at hnodup
      rcases List.mem_cons.mp hmem with hq | hq
      · injection hq with h1 h2
        subst h1
        subst h2
        simp only [writeLrs] at h
        have hnot : ∀ q ∈ rest, "train/" ++ q.1 ≠ "train/" ++ name := by
          intro q hqr
          exact string_append_ne (fun he => hnodup.1 (he ▸ List.mem_map_of_mem Prod.fst hqr))
        have hfr := writeLrs_frame rest ("train/" ++ name) hnot _ _ h
        rw [hfr]
        simp [MessageHub.update_scalar, lookupKey_appendAssoc]
      · have ha : a ≠ name := by
          intro he
          exact hnodup.1 (he ▸ List.mem_map_of_mem Prod.fst hq)
        cases la with
        | nil => cases h
        | cons w wtl =>
            simp only [writeLrs] at h
            have := ih hnodup.2 hq _ _ h
            rw [this]
            simp only [MessageHub.update_scalar, lookupKey_appendAssoc]
            rw [if_neg (string_append_ne ha)]

/-! ### Lemmas about the metric/output loop `writeScalars` -/

theorem writeScalars_frame (tag : String) (kvs : List (String × PyValue))
    (key : String) (hkey : ∀ p ∈ kvs, tag ++ p.1 ≠ key) :
    ∀ hub : MessageHub,
      lookupKey (writeScalars hub tag kvs).scalars key =
        lookupKey hub.scalars key := by
  induction kvs with
  | nil => intro hub; rfl
  | cons p rest ih =>
      intro hub
      obtain ⟨k, v⟩ := p
      simp only [writeScalars]
      rw [ih (fun q hq => hkey q (List.mem_cons_of_mem _ hq))]
      simp only [MessageHub.update_scalar, lookupKey_appendAssoc]
      rw [if_neg (hkey (k, v) (by simp))]

theorem writeScalars_get (tag : String) (kvs : List (String × PyValue))
    (k : String) (v : PyValue) (hnodup : (kvs.map Prod.fst).Nodup)
    (hmem : (k, v) ∈ kvs) :
    ∀ hub : MessageHub,
      lookupKey (writeScalars hub tag kvs).scalars (tag ++ k) =
        some ((lookupKey hub.scalars (tag ++ k)).getD [] ++ [(v, none)]) := by
  induction kvs with
  | nil => simp at hmem
  | cons p rest ih =>
      intro hub
      obtain ⟨a, w⟩ := p
      simp only [List.map_cons, List.nodup_cons] at hnodup
      rcases List.mem_cons.mp hmem with hq | hq
      · injection hq with h1 h2
        subst h1
        subst h2
        simp only [writeScalars]
        have hnot : ∀ q ∈ rest, tag ++ q.1 ≠ tag ++ k := by
          intro q hqr
          exact string_append_ne (fun he => hnodup.1 (he ▸ List.mem_map_of_mem Prod.fst hqr))
        rw [writeScalars_frame tag rest (tag ++ k) hnot]
        simp [MessageHub.update_scalar, lookupKey_appendAssoc]
      · have ha : a ≠ k := fun he => hnodup.1 (he ▸ List.mem_map_of_mem Prod.fst hq)
        simp only [writeScalars]
        rw [ih hnodup.2 hq]
        simp only [MessageHub.update_scalar, lookupKey_appendAssoc]
        rw [if_neg (string_append_ne ha)]

end RuntimeInfoHook

theorem updateAssoc_idem {β : Type} (l : List (String × β)) (k : String)
    (v : β) : updateAssoc (updateAssoc l k v) k v = updateAssoc l k v := by
  induction l with
  | nil => simp [updateAssoc]
  | cons p rest ih =>
      obtain ⟨a, b⟩ := p
      by_cases hak : a = k
      · subst hak; simp [updateAssoc]
      · simp only [updateAssoc, if_neg hak, ih]

theorem update_info_idem (hub : MessageHub) (k : String) (v : PyValue) :
    (hub.update_info k v).update_info k v = hub.update_info k v := by
  simp [MessageHub.update_info, updateAssoc_idem]

/-! ### Concrete sample inputs used by the witness theorems -/

open RuntimeInfoHook

/-- A freshly created registry, empty as at process start. -/
def emptyHub : MessageHub := { info := [], scalars := [] }

/-- A dataset exposing metadata through both probed attributes. -/
def sampleDataset : Dataset :=
  { dataset_meta := some (.obj "coco_meta"), metainfo := some (.obj "coco_meta") }

/-- A runner matching the spec's scenario data (`seed=42`,
`experiment_name="exp1"`, config text `"model=resnet"`, learning rates
`{"backbone": [0.01, 0.01], "head": [0.1]}`). -/
def sampleRunner : Runner :=
  { cfg := { pretty_text := "model=resnet" },
    seed := 42,
    experiment_name := "exp1",
    epoch := 3,
    iter := 7,
    max_epochs := 12,
    max_iters := 1000,
    train_dataloader := { dataset := sampleDataset },
    optim_wrapper :=
      { get_lr := .dict [("backbone", [1/100, 1/100]), ("head", [1/10])] } }

/-- A runner whose optimizer query returns a non-mapping (a Python list). -/
def badLrRunner : Runner :=
  { sampleRunner with optim_wrapper := { get_lr := .nondict "<class 'list'>" } }

/-- A runner whose optimizer query returns a mapping containing an empty
learning-rate sequence. -/
def emptyLrRunner : Runner :=
  { sampleRunner with optim_wrapper := { get_lr := .dict [("backbone", [])] } }

/-- A runner whose dataset exposes no metadata attributes at all. -/
def noMetaRunner : Runner :=
  { sampleRunner with
    train_dataloader := { dataset := { dataset_meta := none, metainfo := none } } }

/-! ### The claims -/

/-- C1: when the optimizer's `get_lr()` returns a non-mapping,
`before_train_iter` raises the contract-violation error (the Python
`AssertionError` carrying the contract message — the spec's
`ContractViolation`) immediately to the caller, and the scalar store of the
registry is left untouched by the call (only the info entry `iter` was
written before the check). -/
theorem before_train_iter_nondict_contract (r : Runner) (b : Int)
    (db : DATA_BATCH) (hub : MessageHub) (t : String)
    (h : r.optim_wrapper.get_lr = .nondict t) :
    before_train_iter r b db hub =
      .error (.assertionError (lrAssertMsg t),
        hub.update_info "iter" (.int r.iter)) ∧
    (hubAfter (before_train_iter r b db hub)).scalars = hub.scalars := by
  refine ⟨?_, ?_⟩ <;> simp [before_train_iter, h, hubAfter]

/-- Witness for C1 at a concrete runner whose `get_lr()` returns a list. -/
theorem before_train_iter_nondict_contract_witness :
    before_train_iter badLrRunner 0 none emptyHub =
      .error (.assertionError (lrAssertMsg "<class 'list'>"),
        emptyHub.update_info "iter" (.int 7)) ∧
    (hubAfter (before_train_iter badLrRunner 0 none emptyHub)).scalars =
      emptyHub.scalars :=
  before_train_iter_nondict_contract badLrRunner 0 none emptyHub
    "<class 'list'>" rfl

/-- C2: when `get_lr()` returns a mapping of group names to (non-empty)
learning-rate sequences with distinct names, `before_train_iter` succeeds,
overwrites info `iter` with the runner's current iteration, and for each
named group appends exactly one scalar under `"train/" + name` holding that
group's index-0 learning rate with no explicit step. -/
theorem before_train_iter_dict_spec (r : Runner) (b : Int) (db : DATA_BATCH)
    (hub : MessageHub) (d : List (String × List ℚ)) (name : String) (v : ℚ)
    (tl : List ℚ) (hd : r.optim_wrapper.get_lr = .dict d)
    (hnodup : (d.map Prod.fst).Nodup) (hne : ∀ p ∈ d, p.2 ≠ [])
    (hmem : (name, v :: tl) ∈ d) :
    ∃ hub', before_train_iter r b db hub = .ok hub' ∧
      hub'.get_info "iter" = .ok (.int r.iter) ∧
      hub'.get_scalar ("train/" ++ name) =
        .ok ((lookupKey hub.scalars ("train/" ++ name)).getD [] ++
          [(.float v, none)]) := by
  obtain ⟨hub', hok⟩ := writeLrs_ok d hne (hub.update_info "iter" (.int r.iter))
  refine ⟨hub', ?_, ?_, ?_⟩
  · simp [before_train_iter, hd, hok]
  · have hinfo : hub'.info = (hub.update_info "iter" (.int r.iter)).info := by
      have hwi := writeLrs_info d (hub.update_info "iter" (.int r.iter))
      rw [hok] at hwi
      exact hwi
    simp [MessageHub.get_info, hinfo, MessageHub.update_info,
      lookupKey_updateAssoc]
  · have hget := writeLrs_get d name v tl hnodup hmem _ _ hok
    simp only [update_info_scalars] at hget
    simp [MessageHub.get_scalar, hget]

/-- Witness for C2 at the spec's scenario input: `get_lr()` returning
`{"backbone": [0.01, 0.01], "head": [0.1]}` makes `train/backbone` gain one
entry with value `0.01`. -/
theorem before_train_iter_dict_spec_witness :
    ∃ hub', before_train_iter sampleRunner 0 none emptyHub = .ok hub' ∧
      hub'.get_info "iter" = .ok (.int 7) ∧
      hub'.get_scalar ("train/" ++ "backbone") =
        .ok ((lookupKey emptyHub.scalars ("train/" ++ "backbone")).getD [] ++
          [(.float (1/100), none)]) :=
  before_train_iter_dict_spec sampleRunner 0 none emptyHub
    [("backbone", [1/100, 1/100]), ("head", [1/10])] "backbone" (1/100)
    [1/100] rfl (by decide) (by decide) (List.mem_cons_self _ _)

/-- C9: the `lr[0]` indexing in `before_train_iter` is unguarded; when every
group's sequence is non-empty the call succeeds (the out-of-bounds branch is
unreachable), while a mapping containing an empty sequence passes the dict
contract check and fails with `IndexError`, not with the contract-violation
`AssertionError`. -/
theorem before_train_iter_index_safety (r : Runner) (b : Int)
    (db : DATA_BATCH) (hub : MessageHub) (d : List (String × List ℚ))
    (hd : r.optim_wrapper.get_lr = .dict d) :
    ((∀ p ∈ d, p.2 ≠ []) →
      ∃ hub', before_train_iter r b db hub = .ok hub') ∧
    ((∃ p ∈ d, p.2 = []) →
      ∃ hub', before_train_iter r b db hub = .error (.indexError, hub')) := by
  constructor
  · intro hne
    obtain ⟨hub', hok⟩ :=
      writeLrs_ok d hne (hub.update_info "iter" (.int r.iter))
    exact ⟨hub', by simp [before_train_iter, hd, hok]⟩
  · intro hemp
    obtain ⟨hub', herr⟩ :=
      writeLrs_indexError d hemp (hub.update_info "iter" (.int r.iter))
    exact ⟨hub', by simp [before_train_iter, hd, herr]⟩

/-- Witness for C9: a runner whose sequences are all non-empty succeeds, and
a runner whose mapping holds an empty sequence fails with `IndexError`. -/
theorem before_train_iter_index_safety_witness :
    (∃ hub', before_train_iter sampleRunner 0 none emptyHub = .ok hub') ∧
    (∃ hub', before_train_iter emptyLrRunner 0 none emptyHub =
      .error (.indexError, hub')) :=
  ⟨(before_train_iter_index_safety sampleRunner 0 none emptyHub _ rfl).1
      (by decide),
   (before_train_iter_index_safety emptyLrRunner 0 none emptyHub _ rfl).2
      ⟨("backbone", []), List.mem_cons_self _ _, rfl⟩⟩

/-- C3: when the active training dataset exposes metadata (it carries the
probed `dataset_meta` attribute together with the `metainfo` attribute the
source reads as the metadata value), `before_train` additionally writes info
`dataset_meta` with that metadata; when the dataset exposes no metadata (no
`dataset_meta` attribute), the entry is left untouched and no error is
raised. -/
theorem before_train_dataset_meta_spec (r : Runner) (hub : MessageHub) :
    (∀ dm m, r.train_dataloader.dataset.dataset_meta = some dm →
      r.train_dataloader.dataset.metainfo = some m →
      ∃ hub', before_train r hub = .ok hub' ∧
        hub'.get_info "dataset_meta" = .ok m) ∧
    (r.train_dataloader.dataset.dataset_meta = none →
      ∃ hub', before_train r hub = .ok hub' ∧
        hub'.get_info "dataset_meta" = hub.get_info "dataset_meta") := by
  constructor
  · intro dm m hdm hm
    refine ⟨((((hub.update_info "epoch" (.int r.epoch)).update_info "iter"
      (.int r.iter)).update_info "max_epochs"
      (.int r.max_epochs)).update_info "max_iters"
      (.int r.max_iters)).update_info "dataset_meta" m, ?_, ?_⟩
    · simp [before_train, hdm, hm]
    · simp +decide [get_info_update_info]
  · intro hdm
    refine ⟨(((hub.update_info "epoch" (.int r.epoch)).update_info "iter"
      (.int r.iter)).update_info "max_epochs"
      (.int r.max_epochs)).update_info "max_iters" (.int r.max_iters), ?_, ?_⟩
    · simp [before_train, hdm]
    · simp +decide [get_info_update_info]

/-- Witness for C3: a dataset exposing metadata gets `dataset_meta` written;
a dataset exposing none leaves the entry untouched without error. -/
theorem before_train_dataset_meta_spec_witness :
    (∃ hub', before_train sampleRunner emptyHub = .ok hub' ∧
      hub'.get_info "dataset_meta" = .ok (.obj "coco_meta")) ∧
    (∃ hub', before_train noMetaRunner emptyHub = .ok hub' ∧
      hub'.get_info "dataset_meta" = emptyHub.get_info "dataset_meta") :=
  ⟨(before_train_dataset_meta_spec sampleRunner emptyHub).1 _ _ rfl rfl,
   (before_train_dataset_meta_spec noMetaRunner emptyHub).2 rfl⟩

/-- C4: `before_run` writes exactly the info entries `cfg`, `seed`,
`experiment_name` and the version/build identifier `mmengine_version`, in a
single batch via `update_info_dict`; afterwards `get_info` returns the
runner's seed, experiment name and configuration text, every other info key
is untouched, and no scalar is written. -/
theorem before_run_spec (version git_hash : String) (r : Runner)
    (hub : MessageHub) (k : String) (h1 : k ≠ "cfg") (h2 : k ≠ "seed")
    (h3 : k ≠ "experiment_name") (h4 : k ≠ "mmengine_version") :
    before_run version git_hash r hub =
      hub.update_info_dict
        [("cfg", .str r.cfg.pretty_text), ("seed", .int r.seed),
         ("experiment_name", .str r.experiment_name),
         ("mmengine_version", .str (version ++ git_hash))] ∧
    (before_run version git_hash r hub).get_info "seed" =
      .ok (.int r.seed) ∧
    (before_run version git_hash r hub).get_info "experiment_name" =
      .ok (.str r.experiment_name) ∧
    (before_run version git_hash r hub).get_info "cfg" =
      .ok (.str r.cfg.pretty_text) ∧
    (before_run version git_hash r hub).get_info "mmengine_version" =
      .ok (.str (version ++ git_hash)) ∧
    (before_run version git_hash r hub).get_info k = hub.get_info k ∧
    (before_run version git_hash r hub).scalars = hub.scalars := by
  refine ⟨rfl, ?_, ?_, ?_, ?_, ?_, rfl⟩ <;>
    simp +decide [before_run, MessageHub.update_info_dict,
      get_info_update_info, eq_false (Ne.symm h1), eq_false (Ne.symm h2),
      eq_false (Ne.symm h3), eq_false (Ne.symm h4)]

/-- Witness for C4 at the spec's scenario: `seed=42`,
`experiment_name="exp1"`, config text `"model=resnet"`. -/
theorem before_run_spec_witness :
    before_run "0.3.0" "+1a2b3c4" sampleRunner emptyHub =
      emptyHub.update_info_dict
        [("cfg", .str "model=resnet"), ("seed", .int 42),
         ("experiment_name", .str "exp1"),
         ("mmengine_version", .str ("0.3.0" ++ "+1a2b3c4"))] ∧
    (before_run "0.3.0" "+1a2b3c4" sampleRunner emptyHub).get_info "seed" =
      .ok (.int 42) ∧
    (before_run "0.3.0" "+1a2b3c4" sampleRunner
      emptyHub).get_info "experiment_name" = .ok (.str "exp1") ∧
    (before_run "0.3.0" "+1a2b3c4" sampleRunner emptyHub).get_info "cfg" =
      .ok (.str "model=resnet") ∧
    (before_run "0.3.0" "+1a2b3c4" sampleRunner
      emptyHub).get_info "mmengine_version" =
      .ok (.str ("0.3.0" ++ "+1a2b3c4")) ∧
    (before_run "0.3.0" "+1a2b3c4" sampleRunner emptyHub).get_info "epoch" =
      emptyHub.get_info "epoch" ∧
    (before_run "0.3.0" "+1a2b3c4" sampleRunner emptyHub).scalars =
      emptyHub.scalars :=
  before_run_spec "0.3.0" "+1a2b3c4" sampleRunner emptyHub "epoch"
    (by decide) (by decide) (by decide) (by decide)

/-- C5: `before_train` writes the info entries `epoch`, `iter`, `max_epochs`
and `max_iters` with the runner's current counter values (hence resumed
counters after a resume), whatever the dataset looks like and even when the
subsequent metadata access fails. -/
theorem before_train_counters (r : Runner) (hub : MessageHub) :
    (hubAfter (before_train r hub)).get_info "epoch" =
      .ok (.int r.epoch) ∧
    (hubAfter (before_train r hub)).get_info "iter" = .ok (.int r.iter) ∧
    (hubAfter (before_train r hub)).get_info "max_epochs" =
      .ok (.int r.max_epochs) ∧
    (hubAfter (before_train r hub)).get_info "max_iters" =
      .ok (.int r.max_iters) := by
  rcases hdm : r.train_dataloader.dataset.dataset_meta with _ | dm <;>
    rcases hmi : r.train_dataloader.dataset.metainfo with _ | mi <;>
      refine ⟨?_, ?_, ?_, ?_⟩ <;>
        simp +decide [before_train, hdm, hmi, hubAfter, get_info_update_info]

/-- C6: `after_val_epoch` and `after_test_epoch` with `metrics = None` leave
the registry untouched and raise no error; with a metrics mapping (distinct
keys) supplied they append exactly one scalar per key/value pair, under
`"val/" + key` respectively `"test/" + key`. -/
theorem after_eval_epochs_spec (r : Runner) (hub : MessageHub)
    (m : List (String × PyValue)) (k : String) (v : PyValue)
    (hnodup : (m.map Prod.fst).Nodup) (hmem : (k, v) ∈ m) :
    after_val_epoch r none hub = hub ∧
    after_test_epoch r none hub = hub ∧
    (after_val_epoch r (some m) hub).get_scalar ("val/" ++ k) =
      .ok ((lookupKey hub.scalars ("val/" ++ k)).getD [] ++ [(v, none)]) ∧
    (after_test_epoch r (some m) hub).get_scalar ("test/" ++ k) =
      .ok ((lookupKey hub.scalars ("test/" ++ k)).getD [] ++ [(v, none)]) := by
  refine ⟨rfl, rfl, ?_, ?_⟩
  · have hg := writeScalars_get "val/" m k v hnodup hmem hub
    simp [after_val_epoch, MessageHub.get_scalar, hg]
  · have hg := writeScalars_get "test/" m k v hnodup hmem hub
    simp [after_test_epoch, MessageHub.get_scalar, hg]

/-- Witness for C6 at the spec's scenario: `metrics=None` mutates nothing;
`metrics={"accuracy": 0.9}` makes `val/accuracy` (resp. `test/accuracy`)
gain the entry `0.9`. -/
theorem after_eval_epochs_spec_witness :
    after_val_epoch sampleRunner none emptyHub = emptyHub ∧
    after_test_epoch sampleRunner none emptyHub = emptyHub ∧
    (after_val_epoch sampleRunner (some [("accuracy", .float (9/10))])
      emptyHub).get_scalar ("val/" ++ "accuracy") =
      .ok ((lookupKey emptyHub.scalars ("val/" ++ "accuracy")).getD [] ++
        [(.float (9/10), none)]) ∧
    (after_test_epoch sampleRunner (some [("accuracy", .float (9/10))])
      emptyHub).get_scalar ("test/" ++ "accuracy") =
      .ok ((lookupKey emptyHub.scalars ("test/" ++ "accuracy")).getD [] ++
        [(.float (9/10), none)]) :=
  after_eval_epochs_spec sampleRunner emptyHub [("accuracy", .float (9/10))]
    "accuracy" (.float (9/10)) (by decide) (List.mem_cons_self _ _)

/-- C7: `after_train_iter` with `outputs = None` leaves the registry
untouched and raises no error; with an outputs mapping (distinct keys)
supplied it appends exactly one scalar under `"train/" + key` per key/value
pair. -/
theorem after_train_iter_outputs_spec (r : Runner) (b : Int)
    (db : DATA_BATCH) (hub : MessageHub) (outs : List (String × PyValue))
    (k : String) (v : PyValue) (hnodup : (outs.map Prod.fst).Nodup)
    (hmem : (k, v) ∈ outs) :
    after_train_iter r b db none hub = hub ∧
    (after_train_iter r b db (some outs) hub).get_scalar ("train/" ++ k) =
      .ok ((lookupKey hub.scalars ("train/" ++ k)).getD [] ++ [(v, none)]) := by
  refine ⟨rfl, ?_⟩
  have hg := writeScalars_get "train/" outs k v hnodup hmem hub
  simp [after_train_iter, MessageHub.get_scalar, hg]

/-- Witness for C7: `outputs=None` mutates nothing; `outputs={"loss": 0.5}`
makes `train/loss` gain the entry `0.5`. -/
theorem after_train_iter_outputs_spec_witness :
    after_train_iter sampleRunner 0 none none emptyHub = emptyHub ∧
    (after_train_iter sampleRunner 0 none
      (some [("loss", .float (1/2))]) emptyHub).get_scalar ("train/" ++ "loss") =
      .ok ((lookupKey emptyHub.scalars ("train/" ++ "loss")).getD [] ++
        [(.float (1/2), none)]) :=
  after_train_iter_outputs_spec sampleRunner 0 none emptyHub
    [("loss", .float (1/2))] "loss" (.float (1/2)) (by decide)
    (List.mem_cons_self _ _)

/-- C8: `before_train_epoch` overwrites info `epoch` with the runner's
current epoch, and calling it twice with the same epoch value is
observationally a no-op: the second call leaves the whole registry (hence
`get_info "epoch"`) unchanged. -/
theorem before_train_epoch_idem (r : Runner) (hub : MessageHub) :
    (before_train_epoch r hub).get_info "epoch" = .ok (.int r.epoch) ∧
    (before_train_epoch r (before_train_epoch r hub)).get_info "epoch" =
      (before_train_epoch r hub).get_info "epoch" ∧
    before_train_epoch r (before_train_epoch r hub) =
      before_train_epoch r hub := by
  refine ⟨?_, ?_, ?_⟩
  · simp [before_train_epoch, get_info_update_info]
  · simp [before_train_epoch, update_info_idem]
  · simp [before_train_epoch, update_info_idem]

/-- C10: the registry writes of `before_train_iter` and `after_train_iter`
do not depend on `batch_idx` or `data_batch`: two calls differing only in
those arguments produce identical results. -/
theorem batch_args_no_influence (r : Runner) (hub : MessageHub)
    (b1 b2 : Int) (db1 db2 : DATA_BATCH)
    (outs : Option (List (String × PyValue))) :
    before_train_iter r b1 db1 hub = before_train_iter r b2 db2 hub ∧
    after_train_iter r b1 db1 outs hub = after_train_iter r b2 db2 outs hub :=
  ⟨rfl, rfl⟩

end Mmengine
